import Mathlib

/-!
Shallow embedding of the core of `motoit_report_gui.py`: the year resolver
(`extract_year_from_text`), the price extractor (`parse_price`), the pagination
discoverer (`discover_pages`) and the aggregation step of `run_scrape`.

Strings are modelled as `List Char`.  The Python regexes involved are small and
are embedded as explicit character-level matchers; the character classes `\s`,
`\w`, `\d` are modelled at the ASCII level (the literal terms of the patterns
and all inputs considered here are ASCII apart from `©` and `€`, which are not
word characters and not digits in Python either).
-/

namespace MotoIt

/-! ## Character classes -/

/-- Python `\s` (ASCII part): space, tab, newline, carriage return, vertical tab, form feed. -/
def isPySpace (c : Char) : Bool :=
  c = ' ' || c = '\t' || c = '\n' || c = '\r' || c = '\x0b' || c = '\x0c'

/-- Python `\w` (ASCII part): letters, digits, underscore. -/
def isWordChar (c : Char) : Bool :=
  c.isAlphanum || c = '_'

/-- Numeric value of a digit character. -/
def digitVal (c : Char) : Nat := c.toNat - 48

/-! ## Normalization: `txt_norm = " " + re.sub(r"\s+", " ", txt) + " "` (line 120) -/

/-- `re.sub(r"\s+", " ", ·)`: collapse each run of whitespace to a single space.
The flag records whether the previous character was part of a whitespace run. -/
def collapseWsAux : Bool → List Char → List Char
  | _, [] => []
  | prevSpace, c :: cs =>
    if isPySpace c then
      if prevSpace then collapseWsAux true cs
      else ' ' :: collapseWsAux true cs
    else c :: collapseWsAux false cs

/-- The normalized text scanned by `extract_year_from_text`. -/
def normalizeText (l : List Char) : List Char :=
  ' ' :: (collapseWsAux false l ++ [' '])

/-! ## `YEAR_PAT = \b(19\d{2}|20\d{2})\b` (line 45) -/

/-- First two digits of a year per the alternation `19\d{2}|20\d{2}`. -/
def yearHeadOk (c1 c2 : Char) : Bool :=
  (c1 = '1' && c2 = '9') || (c1 = '2' && c2 = '0')

/-- Match `(19\d{2}|20\d{2})\b` at position `q` (no word-boundary test on the left),
returning the year value. -/
def yearCoreAt (l : List Char) (q : Nat) : Option Nat :=
  match l.drop q with
  | c1 :: c2 :: c3 :: c4 :: rest =>
    if yearHeadOk c1 c2 && c3.isDigit && c4.isDigit &&
        (match rest with | [] => true | c :: _ => !isWordChar c) then
      some (1000 * digitVal c1 + 100 * digitVal c2 + 10 * digitVal c3 + digitVal c4)
    else none
  | _ => none

/-- `\b` immediately before position `i`, for a match whose first character is a
word character (a digit): position 0, or a non-word character before. -/
def boundaryBefore (l : List Char) (i : Nat) : Bool :=
  match i with
  | 0 => true
  | j + 1 => match l.get? j with | some c => !isWordChar c | none => true

/-- Match `YEAR_PAT` at position `i`. -/
def yearMatchAt (l : List Char) (i : Nat) : Option Nat :=
  if boundaryBefore l i then yearCoreAt l i else none

/-- All matches of `YEAR_PAT.finditer`, as (position, year) pairs in text order.
Since every match requires a non-word character (or the text edge) on both
sides, matches can never overlap, so scanning every position is exactly
`finditer`. -/
def yearTokens (l : List Char) : List (Nat × Nat) :=
  (List.range l.length).filterMap (fun i => (yearMatchAt l i).map (fun y => (i, y)))

/-! ## `DATE_PAT = \b(0?[1-9]|1[0-2])\s*[/\-]\s*(20\d{2}|19\d{2})\b` (line 46) -/

/-- Length of the leading whitespace run (used for the greedy `\s*`, which is
deterministic here because the characters following it can never be whitespace). -/
def cntLS (rest : List Char) : Nat := (rest.takeWhile isPySpace).length

/-- Position after skipping whitespace from `i`. -/
def skipWs (l : List Char) (i : Nat) : Nat := i + cntLS (l.drop i)

def isDateSep (c : Char) : Bool := c = '/' || c = '-'

def isNonzeroDigit (c : Char) : Bool := '1' ≤ c && c ≤ '9'

def monthSecondOk (c : Char) : Bool := '0' ≤ c && c ≤ '2'

/-- Match `\s*[/\-]\s*(20\d{2}|19\d{2})\b` starting at `q` (just after the month). -/
def dateTail (l : List Char) (q : Nat) : Option Nat :=
  match l.get? (skipWs l q) with
  | some c => if isDateSep c then yearCoreAt l (skipWs l (skipWs l q + 1)) else none
  | none => none

/-- Match `DATE_PAT` at position `p`, with Python's alternation/backtracking
order for the month: `0?[1-9]` first (greedy optional `0`), then `1[0-2]`. -/
def dateMatchAt (l : List Char) (p : Nat) : Option Nat :=
  if boundaryBefore l p then
    match l.get? p with
    | some c =>
      if c = '0' then
        -- `0` consumed by `0?`; `[1-9]` must follow (no other alternative can start with `0`)
        match l.get? (p + 1) with
        | some d => if isNonzeroDigit d then dateTail l (p + 2) else none
        | none => none
      else if isNonzeroDigit c then
        -- `0?` empty, `[1-9]` = c; on failure backtrack to `1[0-2]`
        match dateTail l (p + 1) with
        | some y => some y
        | none =>
          if c = '1' then
            match l.get? (p + 1) with
            | some d => if monthSecondOk d then dateTail l (p + 2) else none
            | none => none
          else none
      else none
    | none => none
  else none

/-- `DATE_PAT.search`: year group of the leftmost match. -/
def dateSearch (l : List Char) : Option Nat :=
  (List.range l.length).findSome? (dateMatchAt l)

/-! ## Year range and the step-1 shortcut (lines 42-43, 122-127) -/

def YEAR_MIN : Nat := 1990

def YEAR_MAX : Nat := 2035

/-- Step 1 of `extract_year_from_text`: if `DATE_PAT` matches, return its year
when in range; otherwise (no match, or first match out of range) fall through. -/
def dateShortcut (l : List Char) : Option Nat :=
  match dateSearch l with
  | some y => if YEAR_MIN ≤ y && y ≤ YEAR_MAX then some y else none
  | none => none

/-! ## Windows and label / negative-context tests (lines 48-56, 129-144) -/

/-- `window = txt_norm[max(0, i - 16) : min(len(txt_norm), j + 16)]` with `j = i + 4`. -/
def window (l : List Char) (i : Nat) : List Char :=
  (l.take (i + 20)).drop (i - 16)

/-- The character class `[\s:;,.|]` of `LABEL_NEAR_PAT`. -/
def isLabelDelim (c : Char) : Bool :=
  isPySpace c || c = ':' || c = ';' || c = ',' || c = '.' || c = '|'

/-- Case-insensitive literal match at the head of `w` (the pattern `lit` is
lowercase); returns the rest of `w` after the match. -/
def litCIAt : List Char → List Char → Option (List Char)
  | [], w => some w
  | _ :: _, [] => none
  | a :: as, b :: bs => if a = b.toLower then litCIAt as bs else none

/-- The `mese\s*/\s*anno` alternative of `LABEL_NEAR_PAT`. -/
def meseAnnoAt (w : List Char) : Option (List Char) :=
  match litCIAt "mese".data w with
  | some r1 =>
    match r1.dropWhile isPySpace with
    | '/' :: r3 => litCIAt "anno".data (r3.dropWhile isPySpace)
    | _ => none
  | none => none

/-- Trailing context `(?:[\s:;,.|]|$)` of `LABEL_NEAR_PAT`. -/
def trailingOk : List Char → Bool
  | [] => true
  | c :: _ => isLabelDelim c

/-- Some alternative of `LABEL_NEAR_PAT`'s label group matches at the head of
`w'` with a valid trailing delimiter (all alternatives are tried, as the regex
engine backtracks through them). -/
def labelAltOk (w' : List Char) : Bool :=
  ([litCIAt "anno".data w', litCIAt "immatricolazione".data w',
    litCIAt "immatricolata".data w', litCIAt "prima immatricolazione".data w',
    meseAnnoAt w']).any
    (fun r => match r with | some rest => trailingOk rest | none => false)

/-- `LABEL_NEAR_PAT.search(window)`: a label alternative occurs at the window
start or right after a delimiter character, with a delimiter or the window end
after it. -/
def labelNear (w : List Char) : Bool :=
  (List.range w.length).any (fun p =>
    (match p with
     | 0 => true
     | j + 1 => match w.get? j with | some c => isLabelDelim c | none => false) &&
    labelAltOk (w.drop p))

/-- Case-insensitive substring occurrence (for `NEG_CONTEXT_PAT`, a bare
alternation of literals). -/
def containsCI (lit : List Char) (w : List Char) : Bool :=
  (List.range (w.length + 1)).any (fun p => (litCIAt lit (w.drop p)).isSome)

/-- `NEG_CONTEXT_PAT.search(window)` (lines 53-56). -/
def negCtx (w : List Char) : Bool :=
  (["aggiornato", "pubblicato", "garanzia", "fino al", "tagliando",
    "revisione", "bollo", "promo", "copyright", "©"]).any
    (fun lit => containsCI lit.data w)

/-! ## Candidate scoring (lines 129-154) -/

/-- One in-range `YEAR_PAT` match together with the window tests computed for it. -/
structure YEntry where
  year : Nat
  label : Bool
  neg : Bool
  dateInWin : Bool
deriving DecidableEq, Repr

/-- The in-range year matches of the loop (line 131-138), each with its window's
`LABEL_NEAR_PAT`, `NEG_CONTEXT_PAT` and `DATE_PAT` test results. -/
def yearEntries (l : List Char) : List YEntry :=
  (yearTokens l).filterMap (fun iy =>
    if YEAR_MIN ≤ iy.2 && iy.2 ≤ YEAR_MAX then
      some ⟨iy.2, labelNear (window l iy.1), negCtx (window l iy.1),
            (dateSearch (window l iy.1)).isSome⟩
    else none)

/-- The scoring branches of lines 140-144: label without negative context scores
`10 (+1 with a date pattern in the window)`; unlabeled scores `1`, or `-5` with
negative context; label together with negative context produces no candidate. -/
def scoreOf (e : YEntry) : Option (Nat × Int) :=
  if e.label && !e.neg then some (e.year, 10 + (if e.dateInWin then 1 else 0))
  else if !e.label then some (e.year, if !e.neg then 1 else -5)
  else none

/-- `cands` as built by the loop. -/
def candList (l : List Char) : List (Nat × Int) :=
  (yearEntries l).filterMap scoreOf

/-- The sort key order of line 150: ascending in `(score, -year)`. -/
def candLe (a b : Nat × Int) : Prop :=
  a.2 < b.2 ∨ (a.2 = b.2 ∧ b.1 ≤ a.1)

instance : DecidableRel candLe := fun a b =>
  inferInstanceAs (Decidable (a.2 < b.2 ∨ (a.2 = b.2 ∧ b.1 ≤ a.1)))

instance : IsTotal (Nat × Int) candLe :=
  ⟨by rintro ⟨y1, s1⟩ ⟨y2, s2⟩; simp only [candLe]; omega⟩

instance : IsTrans (Nat × Int) candLe :=
  ⟨by rintro ⟨y1, s1⟩ ⟨y2, s2⟩ ⟨y3, s3⟩; simp only [candLe]; omega⟩

/-- Lines 146-154: `cands.sort(key=lambda t: (t[1], -t[0]))`, take the last
element, return its year unless its score is at most 1. -/
def pickBest (cs : List (Nat × Int)) : Option Nat :=
  match (List.insertionSort candLe cs).getLast? with
  | none => none
  | some (y, s) => if s ≤ 1 then none else some y

/-- `extract_year_from_text` (lines 114-154). -/
def extract_year_from_text (txt : String) : Option Nat :=
  if txt.data = [] then none
  else
    match dateShortcut (normalizeText txt.data) with
    | some y => some y
    | none => pickBest (candList (normalizeText txt.data))

/-! ## Spec-side variant of the scoring (for the refinement claim about
label + negative-context candidates) -/

/-- Modelled from the spec: "If a label term is present together with a
negative-context term, the candidate ... falls through as unlabeled →
low-positive/negative by the negative-context test".  Identical to `scoreOf`
except that a candidate with both a label and negative context receives the
`-5` negative score instead of being dropped. -/
def scoreOfSpecNegFall (e : YEntry) : Option (Nat × Int) :=
  if e.label && !e.neg then some (e.year, 10 + (if e.dateInWin then 1 else 0))
  else some (e.year, if !e.neg then 1 else -5)

def candListSpec (l : List Char) : List (Nat × Int) :=
  (yearEntries l).filterMap scoreOfSpecNegFall

/-- The year resolver with the spec's reading of the label-and-negative case. -/
def extract_year_specNegFall (txt : String) : Option Nat :=
  if txt.data = [] then none
  else
    match dateShortcut (normalizeText txt.data) with
    | some y => some y
    | none => pickBest (candListSpec (normalizeText txt.data))

/-! ## `parse_price` (lines 64-72): `re.search(r"(\d{1,3}(?:[\.\s]\d{3})+|\d+)\s*€", txt)` -/

/-- The class `[\.\s]` of the thousands separator. -/
def isPriceSep (c : Char) : Bool := c = '.' || isPySpace c

/-- Greedy repetition count of `(?:[\.\s]\d{3})` (each repetition is exactly 4
characters). -/
def priceReps : List Char → Nat
  | s :: d1 :: d2 :: d3 :: rest =>
    if isPriceSep s && d1.isDigit && d2.isDigit && d3.isDigit then 1 + priceReps rest
    else 0
  | _ => 0

/-- The tail `\s*€` at position `q` (the greedy `\s*` is deterministic: if the
character after the whitespace run is not `€`, no shorter run can help). -/
def priceTailOk (l : List Char) (q : Nat) : Bool :=
  match l.get? (skipWs l q) with
  | some c => c = '€'
  | none => false

/-- Backtrack the `(...)+` repetitions from `k` down to 1, returning the end
position of the number group on success. -/
def priceTryReps (l : List Char) (pos : Nat) : Nat → Option Nat
  | 0 => none
  | k + 1 =>
    if priceTailOk l (pos + 4 * (k + 1)) then some (pos + 4 * (k + 1))
    else priceTryReps l pos k

/-- Do the `d` characters at `p` exist and are they all digits? -/
def digitsAt (l : List Char) (p d : Nat) : Bool :=
  ((l.drop p).take d).length = d && ((l.drop p).take d).all Char.isDigit

/-- First alternative `\d{1,3}(?:[\.\s]\d{3})+` at `p` (greedy `\d{1,3}`:
3 digits first, then 2, then 1), returning the end position of group 1. -/
def priceAlt1At (l : List Char) (p : Nat) : Option Nat :=
  (([3, 2, 1] : List Nat)).findSome? (fun d =>
    if digitsAt l p d then priceTryReps l (p + d) (priceReps (l.drop (p + d)))
    else none)

/-- Backtrack the greedy `\d+` from `n` digits down to 1. -/
def priceTryRun (l : List Char) (p : Nat) : Nat → Option Nat
  | 0 => none
  | n + 1 =>
    if priceTailOk l (p + (n + 1)) then some (p + (n + 1))
    else priceTryRun l p n

/-- Second alternative `\d+` at `p`. -/
def priceAlt2At (l : List Char) (p : Nat) : Option Nat :=
  priceTryRun l p ((l.drop p).takeWhile Char.isDigit).length

/-- Match the price pattern at `p`, returning the characters of group 1. -/
def priceMatchAt (l : List Char) (p : Nat) : Option (List Char) :=
  match priceAlt1At l p with
  | some e => some ((l.take e).drop p)
  | none =>
    match priceAlt2At l p with
    | some e => some ((l.take e).drop p)
    | none => none

/-- `re.search` for the price pattern: leftmost match's group 1. -/
def priceSearch (l : List Char) : Option (List Char) :=
  (List.range l.length).findSome? (priceMatchAt l)

/-- Model of Python `int(s)` on a string: strips surrounding whitespace, allows
one optional sign, then requires a nonempty run of digits; `none` models the
`ValueError` that the code catches.  (Python also accepts underscore digit
separators and non-ASCII digits; neither can occur in a price group, which
consists of ASCII digits, `.` and whitespace.) -/
def int_of_string? (s : List Char) : Option Int :=
  let t := ((s.dropWhile isPySpace).reverse.dropWhile isPySpace).reverse
  match t with
  | '+' :: ds =>
    if ds ≠ [] && ds.all Char.isDigit then some (ds.foldl (fun n c => 10 * n + digitVal c) 0)
    else none
  | '-' :: ds =>
    if ds ≠ [] && ds.all Char.isDigit then some (-(ds.foldl (fun n c => 10 * n + digitVal c) 0 : Int))
    else none
  | ds =>
    if ds ≠ [] && ds.all Char.isDigit then some (ds.foldl (fun n c => 10 * n + digitVal c) 0)
    else none

/-- `parse_price` (lines 64-72): on a match, strip `.` and `' '` from group 1
and parse as an integer; the `try/except ValueError` is the `none` branch of
`int_of_string?`. -/
def parse_price (txt : String) : Option Int :=
  match priceSearch txt.data with
  | none => none
  | some g =>
    match int_of_string? (g.filter (fun c => !(c = '.' || c = ' '))) with
    | some n => some n
    | none => none

/-! ## `discover_pages` (lines 211-243) -/

/-- Outcome of fetching one probe page: a parsed page (with the result of
`has_listings`), an HTTP status error (`requests.HTTPError`, with
`e.response.status_code` when available), or any other exception
(connection errors, timeouts, parse failures, ...). -/
inductive ProbeOutcome where
  | ok (hasListings : Bool)
  | httpError (status : Option Nat)
  | otherError
deriving DecidableEq, Repr

/-- Abstraction of the fetch capability for one run of `discover_pages`:
`basePage` is the set of `href` attributes of the base page's links when the
base fetch succeeds (`none` models any exception, all of which line 227
catches), and `probe i` is the outcome of fetching probe page `i`. -/
structure FetchWorld where
  basePage : Option (List String)
  probe : Nat → ProbeOutcome

/-- `base_url.rstrip("/")`. -/
def rstripSlash (s : String) : String :=
  ⟨(s.data.reverse.dropWhile (fun c => c = '/')).reverse⟩

/-- Exact (case-sensitive) literal match at the head of `w`. -/
def litAt : List Char → List Char → Option (List Char)
  | [], w => some w
  | _ :: _, [] => none
  | a :: as, b :: bs => if a = b then litAt as bs else none

/-- `re.search(r"/pagina-(\d+)", h)` (line 220): first occurrence of the
literal followed by at least one digit; the greedy `\d+` takes the whole run. -/
def extractPageNum (h : String) : Option Nat :=
  (List.range h.data.length).findSome? (fun p =>
    match litAt "/pagina-".data (h.data.drop p) with
    | some rest =>
      match rest.takeWhile Char.isDigit with
      | [] => none
      | ds => some (ds.foldl (fun n c => 10 * n + digitVal c) 0)
    | none => none)

/-- `f"{base}/pagina-{i}"` on the already-stripped base. -/
def pageUrl (b : String) (i : Nat) : String :=
  b ++ "/pagina-" ++ toString i

/-- The sequential probing loop (lines 231-243), iterating page index `i` with
`n` iterations remaining.  A page with listings is appended; a page without
listings stops; a caught `requests.HTTPError` stops on 404 and is otherwise
swallowed (the loop continues); any other exception propagates (`.error`),
because the `except` clause only catches `requests.HTTPError`. -/
def probeLoop (w : FetchWorld) (b : String) : Nat → Nat → List String → Except Unit (List String)
  | _, 0, acc => .ok acc
  | i, n + 1, acc =>
    match w.probe i with
    | .ok true => probeLoop w b (i + 1) n (acc ++ [pageUrl b i])
    | .ok false => .ok acc
    | .httpError c => if c = some 404 then .ok acc else probeLoop w b (i + 1) n acc
    | .otherError => .error ()

/-- `discover_pages` (lines 211-243).  The declared-pagination fast path builds
pages `2 .. min(max(nums), max_pages)`; otherwise probing runs for indices
`2 .. max_pages` (`max_pages - 1` iterations). -/
def discover_pages (base_url : String) (w : FetchWorld) (max_pages : Nat) : Except Unit (List String) :=
  match w.basePage with
  | some hrefs =>
    if hrefs.filterMap extractPageNum ≠ [] then
      .ok (rstripSlash base_url ::
        (List.range' 2 (min ((hrefs.filterMap extractPageNum).foldl Nat.max 0) max_pages + 1 - 2)).map
          (pageUrl (rstripSlash base_url)))
    else probeLoop w (rstripSlash base_url) 2 (max_pages - 1) [rstripSlash base_url]
  | none => probeLoop w (rstripSlash base_url) 2 (max_pages - 1) [rstripSlash base_url]

/-! ## Aggregation (lines 310-313): `pd.DataFrame(rows).drop_duplicates()` then
`sort_values(["year", "price_eur"], ascending=[True, True])` -/

/-- One row of the record stream built by `parse_page` (lines 287-295). -/
structure ListingRecord where
  brand : String
  model : String
  year : Nat
  price_eur : Nat
  km : Option Nat
  location : Option String
  source_url : String
deriving DecidableEq, Repr

/-- `drop_duplicates`: keep the first occurrence of each distinct row. -/
def dedupAux (seen : List ListingRecord) : List ListingRecord → List ListingRecord
  | [] => []
  | x :: xs => if x ∈ seen then dedupAux seen xs else x :: dedupAux (x :: seen) xs

def dropDuplicates (rows : List ListingRecord) : List ListingRecord :=
  dedupAux [] rows

/-- The sort order of `sort_values(["year", "price_eur"], ascending=[True, True])`:
year ascending, then price ascending (a stable sort keyed on these two columns). -/
def keyLe (a b : ListingRecord) : Prop :=
  a.year < b.year ∨ (a.year = b.year ∧ a.price_eur ≤ b.price_eur)

instance : DecidableRel keyLe := fun a b =>
  inferInstanceAs (Decidable (a.year < b.year ∨ (a.year = b.year ∧ a.price_eur ≤ b.price_eur)))

instance : IsTotal ListingRecord keyLe :=
  ⟨by intro a b; simp only [keyLe]; omega⟩

instance : IsTrans ListingRecord keyLe :=
  ⟨by intro a b c; simp only [keyLe]; omega⟩

/-- Lines 310-313 of `run_scrape`: deduplicate, then sort when nonempty. -/
def aggregate_records (rows : List ListingRecord) : List ListingRecord :=
  if dropDuplicates rows = [] then dropDuplicates rows
  else List.insertionSort keyLe (dropDuplicates rows)

/-! ## Claim-side auxiliary definitions -/

/-- Modelled from the claim wording for the date shortcut: the year of the
first month/year date pattern in the text whose year is in range (the code, by
contrast, only range-checks the overall first `DATE_PAT` match). -/
def firstInRangeDateYear (l : List Char) : Option Nat :=
  (List.range l.length).findSome? (fun p =>
    match dateMatchAt l p with
    | some y => if YEAR_MIN ≤ y && y ≤ YEAR_MAX then some y else none
    | none => none)

/-- A concrete world whose base page declares pagination links up to index 7. -/
def declaredWorld : FetchWorld :=
  ⟨some ["/moto/pagina-7", "/moto/pagina-2", ""], fun _ => .otherError⟩

/-- A concrete world whose probe of page 2 raises a non-HTTP transport error. -/
def probeCrashWorld : FetchWorld :=
  ⟨some [], fun i => if i = 2 then .otherError else .ok true⟩

/-- A concrete world whose probe of page 2 raises an HTTP 500 error. -/
def probeHttpWorld : FetchWorld :=
  ⟨none, fun i => if i = 2 then .httpError (some 500) else .ok true⟩

/-! ## Lemmas about the candidate selection -/

theorem candLe_refl (a : Nat × Int) : candLe a a :=
  Or.inr ⟨rfl, le_refl _⟩

theorem candLe_score_le {a b : Nat × Int} (h : candLe a b) : a.2 ≤ b.2 := by
  rcases h with h | ⟨h, _⟩
  · exact le_of_lt h
  · exact le_of_eq h

theorem candLe_antisymm {a b : Nat × Int} (h1 : candLe a b) (h2 : candLe b a) : a = b := by
  rcases a with ⟨y1, s1⟩
  rcases b with ⟨y2, s2⟩
  simp only [candLe] at h1 h2
  have hs : s1 = s2 := by omega
  have hy : y1 = y2 := by omega
  rw [hs, hy]

theorem rel_getLast_of_sorted :
    ∀ {S : List (Nat × Int)}, S.Sorted candLe → ∀ (hne : S ≠ []), ∀ c ∈ S, candLe c (S.getLast hne) := by
  intro S
  induction S with
  | nil => intro _ hne; exact absurd rfl hne
  | cons x t ih =>
    intro hs hne c hc
    rcases List.sorted_cons.mp hs with ⟨hx, ht⟩
    cases t with
    | nil =>
      have hcx : c = x := by simpa using hc
      subst hcx
      exact candLe_refl c
    | cons y t' =>
      rw [List.getLast_cons (List.cons_ne_nil y t')]
      rcases List.mem_cons.mp hc with rfl | hc'
      · exact hx _ (List.getLast_mem (List.cons_ne_nil y t'))
      · exact ih ht (List.cons_ne_nil y t') c hc'

theorem pickBest_spec (cs : List (Nat × Int)) (h : cs ≠ []) :
    ∃ b, b ∈ cs ∧ (∀ c ∈ cs, candLe c b) ∧ pickBest cs = (if b.2 ≤ 1 then none else some b.1) := by
  have hperm := List.perm_insertionSort candLe cs
  have hsorted := List.sorted_insertionSort candLe cs
  have hne : List.insertionSort candLe cs ≠ [] := by
    intro h0
    exact h (List.Perm.eq_nil (h0 ▸ hperm).symm)
  refine ⟨(List.insertionSort candLe cs).getLast hne, ?_, ?_, ?_⟩
  · exact hperm.subset (List.getLast_mem hne)
  · intro c hc
    exact rel_getLast_of_sorted hsorted hne c (hperm.mem_iff.mpr hc)
  · rcases hb : (List.insertionSort candLe cs).getLast hne with ⟨y, s⟩
    simp [pickBest, List.getLast?_eq_getLast _ hne, hb]

theorem pickBest_eq_of_max {cs : List (Nat × Int)} {b : Nat × Int}
    (hmem : b ∈ cs) (hmax : ∀ c ∈ cs, candLe c b) :
    pickBest cs = if b.2 ≤ 1 then none else some b.1 := by
  obtain ⟨b', hb'mem, hb'max, heq⟩ := pickBest_spec cs (List.ne_nil_of_mem hmem)
  have hbb : b' = b := candLe_antisymm (hmax b' hb'mem) (hb'max b hmem)
  rw [heq, hbb]

theorem pickBest_none_of_all_le {cs : List (Nat × Int)} (h : ∀ c ∈ cs, c.2 ≤ 1) :
    pickBest cs = none := by
  cases hcs : cs with
  | nil => rfl
  | cons a t =>
    obtain ⟨b, hbmem, _, heq⟩ := pickBest_spec cs (by rw [hcs]; exact List.cons_ne_nil a t)
    rw [← hcs] at *
    rw [heq, if_pos (h b hbmem)]

/-! ## The year of a date-pattern match is itself a `YEAR_PAT` token -/

theorem not_word_of_dateSep {c : Char} (h : isDateSep c = true) : isWordChar c = false := by
  simp only [isDateSep, Bool.or_eq_true, decide_eq_true_eq] at h
  rcases h with rfl | rfl <;> decide

theorem not_word_of_pySpace {c : Char} (h : isPySpace c = true) : isWordChar c = false := by
  simp only [isPySpace, Bool.or_eq_true, decide_eq_true_eq] at h
  rcases h with ((((rfl | rfl) | rfl) | rfl) | rfl) | rfl <;> decide

theorem takeWhile_last {p : Char → Bool} :
    ∀ {rest : List Char}, (rest.takeWhile p).length ≠ 0 →
      ∃ c, rest.get? ((rest.takeWhile p).length - 1) = some c ∧ p c = true := by
  intro rest
  induction rest with
  | nil => intro h; simp at h
  | cons a as ih =>
    intro h
    by_cases hp : p a
    · rw [List.takeWhile_cons_of_pos hp] at h ⊢
      cases hcs : (as.takeWhile p).length with
      | zero => exact ⟨a, by simp [hcs], hp⟩
      | succ k =>
        obtain ⟨c, hc, hpc⟩ := ih (by rw [hcs]; exact Nat.succ_ne_zero k)
        refine ⟨c, ?_, hpc⟩
        rw [hcs] at hc
        simp only [List.length_cons, hcs]
        simpa using hc
    · rw [List.takeWhile_cons_of_neg hp] at h
      simp at h

theorem space_before_skip {l : List Char} {i : Nat} (h : cntLS (l.drop i) ≠ 0) :
    ∃ c, l.get? (i + cntLS (l.drop i) - 1) = some c ∧ isPySpace c = true := by
  unfold cntLS at h ⊢
  obtain ⟨c, hc, hpc⟩ := takeWhile_last h
  refine ⟨c, ?_, hpc⟩
  have hidx : i + ((l.drop i).takeWhile isPySpace).length - 1 =
      i + (((l.drop i).takeWhile isPySpace).length - 1) := by omega
  rw [hidx, ← List.get?_drop]
  exact hc

theorem yearCoreAt_lt {l : List Char} {q y : Nat} (h : yearCoreAt l q = some y) : q < l.length := by
  by_contra hq
  push_neg at hq
  have hdrop : l.drop q = [] := List.drop_eq_nil_iff_le.mpr hq
  unfold yearCoreAt at h
  rw [hdrop] at h
  exact Option.noConfusion h

theorem boundaryBefore_after_sep {l : List Char} {q1 : Nat} {c : Char}
    (hg : l.get? q1 = some c) (hnw : isWordChar c = false) :
    boundaryBefore l (skipWs l (q1 + 1)) = true := by
  unfold skipWs
  cases hn : cntLS (l.drop (q1 + 1)) with
  | zero =>
    have hg' : l[q1]? = some c := by rw [← List.get?_eq_getElem?]; exact hg
    simp only [Nat.add_zero]
    simp [boundaryBefore, hg', hnw]
  | succ k =>
    obtain ⟨sp, hsp, hpysp⟩ := space_before_skip (by rw [hn]; exact Nat.succ_ne_zero k)
    rw [hn] at hsp
    have hidx : q1 + 1 + (k + 1) - 1 = q1 + 1 + k := by omega
    rw [hidx] at hsp
    have hsp' : l[q1 + 1 + k]? = some sp := by rw [← List.get?_eq_getElem?]; exact hsp
    have hpos : q1 + 1 + (k + 1) = (q1 + 1 + k) + 1 := by omega
    rw [hpos]
    simp [boundaryBefore, hsp', not_word_of_pySpace hpysp]

theorem dateTail_year {l : List Char} {q y : Nat} (h : dateTail l q = some y) :
    ∃ r, yearMatchAt l r = some y ∧ r < l.length := by
  unfold dateTail at h
  split at h
  · rename_i c heq
    by_cases hsep : isDateSep c
    · rw [if_pos hsep] at h
      refine ⟨skipWs l (skipWs l q + 1), ?_, yearCoreAt_lt h⟩
      have hb := boundaryBefore_after_sep heq (not_word_of_dateSep hsep)
      unfold yearMatchAt
      rw [if_pos hb]
      exact h
    · rw [if_neg hsep] at h; exact Option.noConfusion h
  · exact Option.noConfusion h

theorem dateMatchAt_year {l : List Char} {p y : Nat} (h : dateMatchAt l p = some y) :
    ∃ r, yearMatchAt l r = some y ∧ r < l.length := by
  unfold dateMatchAt at h
  repeat' split at h
  all_goals
    first
    | exact Option.noConfusion h
    | exact dateTail_year h
    | (rename_i heq
       exact Option.some.inj h ▸ dateTail_year heq)

theorem dateSearch_year_token {l : List Char} {y : Nat} (h : dateSearch l = some y) :
    ∃ q, (q, y) ∈ yearTokens l := by
  unfold dateSearch at h
  obtain ⟨p, _, hmatch⟩ := List.exists_of_findSome?_eq_some h
  obtain ⟨r, hr, hrlt⟩ := dateMatchAt_year hmatch
  refine ⟨r, ?_⟩
  unfold yearTokens
  exact List.mem_filterMap.mpr ⟨r, List.mem_range.mpr hrlt, by rw [hr]; rfl⟩

/-! ## The label-with-negative-context fallthrough (claim C5) -/

theorem scoreOf_imp_spec {e : YEntry} {c : Nat × Int} (h : scoreOf e = some c) :
    scoreOfSpecNegFall e = some c := by
  unfold scoreOf at h
  unfold scoreOfSpecNegFall
  cases hl : e.label <;> cases hn : e.neg <;> simp [hl, hn] at h ⊢ <;> exact h

theorem spec_imp_scoreOf {e : YEntry} {c : Nat × Int} (h : scoreOfSpecNegFall e = some c) :
    scoreOf e = some c ∨ c.2 = -5 := by
  unfold scoreOfSpecNegFall at h
  unfold scoreOf
  cases hl : e.label <;> cases hn : e.neg <;> simp [hl, hn] at h ⊢ <;>
    first
    | exact Or.inl h
    | exact h
    | rw [← h]

theorem pickBest_negFall (es : List YEntry) :
    pickBest (es.filterMap scoreOf) = pickBest (es.filterMap scoreOfSpecNegFall) := by
  have hAB : ∀ c ∈ es.filterMap scoreOf, c ∈ es.filterMap scoreOfSpecNegFall := by
    intro c hc
    obtain ⟨e, he, hce⟩ := List.mem_filterMap.mp hc
    exact List.mem_filterMap.mpr ⟨e, he, scoreOf_imp_spec hce⟩
  by_cases hB : es.filterMap scoreOfSpecNegFall = []
  · have hA : es.filterMap scoreOf = [] := by
      rw [List.eq_nil_iff_forall_not_mem] at hB ⊢
      intro c hc
      exact hB c (hAB c hc)
    rw [hA, hB]
  · obtain ⟨b, hbB, hbmax, heqB⟩ := pickBest_spec _ hB
    by_cases hs : b.2 ≤ 1
    · rw [heqB, if_pos hs]
      apply pickBest_none_of_all_le
      intro c hc
      exact le_trans (candLe_score_le (hbmax c (hAB c hc))) hs
    · have hbA : b ∈ es.filterMap scoreOf := by
        obtain ⟨e, he, hce⟩ := List.mem_filterMap.mp hbB
        rcases spec_imp_scoreOf hce with h | h
        · exact List.mem_filterMap.mpr ⟨e, he, h⟩
        · exact absurd (by omega : b.2 ≤ 1) hs
      rw [heqB, pickBest_eq_of_max hbA (fun c hc => hbmax c (hAB c hc))]

/-! ## Claim theorems -/

/-- Claim C1, counterexample: in this text exactly one in-range year (2015) has a
label term and no negative-context term in its window, and the other in-range
year (2010) is unlabeled; yet the resolver returns 2010, not 2015, because the
month/year date-pattern shortcut of step 1 fires on `05/2010` before any
label-based scoring happens. -/
theorem extract_year_C1_cex :
    ((yearEntries (normalizeText "qqqqqqqqqqqqqqqqqq 05/2010 qqqqqqqqqqqqqqqqqq anno 2015".data)).filter
        (fun e => e.label && !e.neg)).map YEntry.year = [2015] ∧
    extract_year_from_text "qqqqqqqqqqqqqqqqqq 05/2010 qqqqqqqqqqqqqqqqqq anno 2015" = some 2010 ∧
    extract_year_from_text "qqqqqqqqqqqqqqqqqq 05/2010 qqqqqqqqqqqqqqqqqq anno 2015" ≠ some 2015 := by
  decide

/-- Claim C1 (amended): if every in-range year occurrence whose window contains a
label term and no negative-context term has value `Y` (and at least one such
occurrence exists), and the step-1 date shortcut either does not fire or yields
this same `Y`, then the resolver returns `Y`.  (Other in-range years being
"unlabeled or in negative context" is exactly the complement of the filter.) -/
theorem extract_year_single_labeled {txt : String} {Y : Nat}
    (hne : ((yearEntries (normalizeText txt.data)).filter (fun e => e.label && !e.neg)) ≠ [])
    (hY : ∀ e ∈ (yearEntries (normalizeText txt.data)).filter (fun e => e.label && !e.neg), e.year = Y)
    (hdate : dateShortcut (normalizeText txt.data) = none ∨
             dateShortcut (normalizeText txt.data) = some Y) :
    extract_year_from_text txt = some Y := by
  have hnil : txt.data ≠ [] := by
    intro h0
    rw [h0] at hne
    exact hne (by decide)
  unfold extract_year_from_text
  rw [if_neg hnil]
  rcases hdate with hd | hd
  · rw [hd]
    show pickBest (candList (normalizeText txt.data)) = some Y
    obtain ⟨e0, he0⟩ := List.exists_mem_of_ne_nil _ hne
    have he0' := List.mem_filter.mp he0
    have hscore : scoreOf e0 = some (e0.year, 10 + (if e0.dateInWin then 1 else 0)) := by
      unfold scoreOf
      rw [if_pos he0'.2]
    have hc0 : (e0.year, (10 : Int) + (if e0.dateInWin then 1 else 0)) ∈
        candList (normalizeText txt.data) :=
      List.mem_filterMap.mpr ⟨e0, he0'.1, hscore⟩
    obtain ⟨b, hbmem, hbmax, heq⟩ := pickBest_spec _ (List.ne_nil_of_mem hc0)
    have hble := candLe_score_le (hbmax _ hc0)
    have hb10 : (10 : Int) ≤ b.2 :=
      le_trans (by split <;> omega : (10 : Int) ≤ 10 + (if e0.dateInWin then 1 else 0)) hble
    have hbY : b.1 = Y ∧ (1 : Int) < b.2 := by
      obtain ⟨eb, hebmem, hebsc⟩ := List.mem_filterMap.mp hbmem
      unfold scoreOf at hebsc
      by_cases hcond : (eb.label && !eb.neg) = true
      · rw [if_pos hcond] at hebsc
        have hb := Option.some.inj hebsc
        have hY' : eb.year = Y := hY eb (List.mem_filter.mpr ⟨hebmem, hcond⟩)
        constructor
        · rw [← hb]
          exact hY'
        · rw [← hb]
          show (1 : Int) < 10 + (if eb.dateInWin then 1 else 0)
          split <;> omega
      · exfalso
        rw [if_neg hcond] at hebsc
        by_cases hlab : (!eb.label) = true
        · rw [if_pos hlab] at hebsc
          have hb := Option.some.inj hebsc
          have hb2 : b.2 = (if !eb.neg then (1 : Int) else -5) := by rw [← hb]
          have hle : b.2 ≤ 1 := by rw [hb2]; split <;> omega
          omega
        · rw [if_neg hlab] at hebsc
          exact Option.noConfusion hebsc
    obtain ⟨hbY1, hbY2⟩ := hbY
    rw [heq, if_neg (by omega : ¬ b.2 ≤ 1), hbY1]
  · rw [hd]

/-- Witness for the amended C1: the spec's own end-to-end card text has a single
labeled in-range year, 2019, and the resolver returns it. -/
theorem extract_year_single_labeled_wit :
    extract_year_from_text "Honda CBR 650 R, Anno 2019, 12.500 €, Km: 8.200, Milano (MI)" =
      some 2019 :=
  @extract_year_single_labeled "Honda CBR 650 R, Anno 2019, 12.500 €, Km: 8.200, Milano (MI)"
    2019 (by decide) (by decide) (Or.inl (by decide))

/-- Claim C2, counterexample: in `"2001 2005"` two candidates receive the equal
maximal score 1, but the resolver returns unresolved (`none`), not the smaller
year 2001, because the winning score does not exceed the low-positive
threshold. -/
theorem extract_year_C2_cex :
    candList (normalizeText "2001 2005".data) = [(2001, 1), (2005, 1)] ∧
    extract_year_from_text "2001 2005" = none := by
  decide

/-- Claim C2 (amended): when the date shortcut does not fire and `(Y, S)` is a
candidate whose score `S` exceeds the low-positive threshold 1 and which is
maximal in the sort-key order (every candidate either scores less, or scores
equally with a year at least `Y`), the resolver returns `Y` — the smallest of
the maximally-scored years. -/
theorem extract_year_tiebreak {txt : String} {Y : Nat} {S : Int}
    (hdate : dateShortcut (normalizeText txt.data) = none)
    (hmem : (Y, S) ∈ candList (normalizeText txt.data))
    (hS : 1 < S)
    (hmax : ∀ c ∈ candList (normalizeText txt.data), candLe c (Y, S)) :
    extract_year_from_text txt = some Y := by
  have hnil : txt.data ≠ [] := by
    intro h0
    rw [h0, (by decide : candList (normalizeText ([] : List Char)) = [])] at hmem
    exact absurd hmem (List.not_mem_nil _)
  unfold extract_year_from_text
  rw [if_neg hnil, hdate]
  show pickBest (candList (normalizeText txt.data)) = some Y
  rw [pickBest_eq_of_max hmem hmax, if_neg (show ¬ ((Y, S).2 ≤ 1) by show ¬ (S ≤ 1); omega)]

/-- Witness for the amended C2: two labeled years tie at score 10 and the
smaller one (2015) is returned. -/
theorem extract_year_tiebreak_wit :
    extract_year_from_text "qqqqqqqqqqqqq anno 2019 qqqqqqqqqqqqqqqqqqqqqq anno 2015" = some 2015 :=
  @extract_year_tiebreak "qqqqqqqqqqqqq anno 2019 qqqqqqqqqqqqqqqqqqqqqq anno 2015" 2015 10
    (by decide) (by decide) (by decide) (by decide)

/-- Claim C3: if every `YEAR_PAT` token of the normalized text is outside
`[1990, 2035]`, the resolver returns unresolved, regardless of labels or date
patterns: the date shortcut cannot fire (its year is itself such a token) and
the candidate loop discards every token. -/
theorem extract_year_out_of_range {txt : String}
    (h : ∀ p ∈ yearTokens (normalizeText txt.data), ¬(YEAR_MIN ≤ p.2 ∧ p.2 ≤ YEAR_MAX)) :
    extract_year_from_text txt = none := by
  unfold extract_year_from_text
  by_cases hnil : txt.data = []
  · rw [if_pos hnil]
  · rw [if_neg hnil]
    have hshort : dateShortcut (normalizeText txt.data) = none := by
      unfold dateShortcut
      cases hd : dateSearch (normalizeText txt.data) with
      | none => rfl
      | some y =>
        obtain ⟨q, hq⟩ := dateSearch_year_token hd
        have hy := h (q, y) hq
        have hcond : ¬ ((YEAR_MIN ≤ y && y ≤ YEAR_MAX) = true) := by
          simp only [Bool.and_eq_true, decide_eq_true_eq]
          intro hc
          exact hy hc
        exact if_neg hcond
    rw [hshort]
    show pickBest (candList (normalizeText txt.data)) = none
    have hent : yearEntries (normalizeText txt.data) = [] := by
      unfold yearEntries
      apply List.filterMap_eq_nil.mpr
      intro iy hiy
      have hy := h iy hiy
      have hcond : ¬ ((YEAR_MIN ≤ iy.2 && iy.2 ≤ YEAR_MAX) = true) := by
        simp only [Bool.and_eq_true, decide_eq_true_eq]
        intro hc
        exact hy hc
      rw [if_neg hcond]
    unfold candList
    rw [hent]
    rfl

/-- Witness for C3: a labeled out-of-range year and an out-of-range date
pattern, both discarded. -/
theorem extract_year_out_of_range_wit :
    extract_year_from_text "anno 1950 e 03/2040" = none :=
  extract_year_out_of_range (by decide)

/-- Claim C4: with no date pattern and exactly two in-range year occurrences,
both unlabeled and without negative context, the resolver returns unresolved:
both candidates score the low-positive 1, which does not exceed the
threshold. -/
theorem extract_year_two_isolated {txt : String} {y1 y2 : Nat} {d1 d2 : Bool}
    (hdate : dateSearch (normalizeText txt.data) = none)
    (hent : yearEntries (normalizeText txt.data) =
      [⟨y1, false, false, d1⟩, ⟨y2, false, false, d2⟩]) :
    extract_year_from_text txt = none := by
  unfold extract_year_from_text
  by_cases hnil : txt.data = []
  · rw [if_pos hnil]
  · rw [if_neg hnil]
    have hshort : dateShortcut (normalizeText txt.data) = none := by
      unfold dateShortcut
      rw [hdate]
    rw [hshort]
    show pickBest (candList (normalizeText txt.data)) = none
    have hc : candList (normalizeText txt.data) = [(y1, 1), (y2, 1)] := by
      unfold candList
      rw [hent]
      rfl
    rw [hc]
    apply pickBest_none_of_all_le
    intro c hc'
    rcases List.mem_cons.mp hc' with rfl | hc''
    · exact le_refl 1
    · rcases List.mem_cons.mp hc'' with rfl | hc3
      · exact le_refl 1
      · exact absurd hc3 (List.not_mem_nil c)

/-- Witness for C4: two bare isolated years yield unresolved. -/
theorem extract_year_two_isolated_wit :
    extract_year_from_text "2001 2005" = none :=
  @extract_year_two_isolated "2001 2005" 2001 2005 false false (by decide) (by decide)

/-- Claim C5: a candidate whose window has both a label term and a
negative-context term is dropped by the code (neither scoring branch applies);
scoring it instead as an unlabeled negative-context candidate (score `-5`), as
the spec describes, never changes the resolver's result: a `-5` candidate can
only win when every candidate scores at most the threshold, where the result
is unresolved either way. -/
theorem extract_year_negFall_equiv (txt : String) :
    extract_year_from_text txt = extract_year_specNegFall txt := by
  unfold extract_year_from_text extract_year_specNegFall
  by_cases hnil : txt.data = []
  · rw [if_pos hnil, if_pos hnil]
  · rw [if_neg hnil, if_neg hnil]
    cases dateShortcut (normalizeText txt.data) with
    | some y => rfl
    | none =>
      show pickBest (candList (normalizeText txt.data)) =
        pickBest (candListSpec (normalizeText txt.data))
      unfold candList candListSpec
      exact pickBest_negFall _

/-- Claim C6, counterexample: the text contains a month/year pattern with
in-range year (`5/2000`, the first such pattern), yet Strategy A returns
unresolved: the shortcut only range-checks the overall first `DATE_PAT` match
(`5/2050`, out of range) and then falls through to scoring, where `2000` is a
bare isolated year. -/
theorem extract_year_C6_cex :
    firstInRangeDateYear (normalizeText "5/2050 e 5/2000".data) = some 2000 ∧
    extract_year_from_text "5/2050 e 5/2000" = none := by
  decide

/-- Claim C6 (amended): if the first `DATE_PAT` match of the normalized text has
an in-range year `y`, Strategy A returns `y` immediately — regardless of any
negative-context terms around it or labeled years elsewhere. -/
theorem extract_year_date_first {txt : String} {y : Nat}
    (hd : dateSearch (normalizeText txt.data) = some y)
    (hy : YEAR_MIN ≤ y ∧ y ≤ YEAR_MAX) :
    extract_year_from_text txt = some y := by
  have hnil : txt.data ≠ [] := by
    intro h0
    rw [h0, (by decide : dateSearch (normalizeText ([] : List Char)) = none)] at hd
    exact Option.noConfusion hd
  unfold extract_year_from_text
  rw [if_neg hnil]
  have hshort : dateShortcut (normalizeText txt.data) = some y := by
    unfold dateShortcut
    rw [hd]
    exact if_pos (show (YEAR_MIN ≤ y && y ≤ YEAR_MAX) = true by
      simp only [Bool.and_eq_true, decide_eq_true_eq]
      exact hy)
  rw [hshort]

/-- Witness for the amended C6: the date pattern sits in negative context
(`garanzia`) and a different year is labeled, yet the date year wins. -/
theorem extract_year_date_first_wit :
    extract_year_from_text "garanzia 5/2020 qq anno 2015" = some 2020 :=
  @extract_year_date_first "garanzia 5/2020 qq anno 2015" 2020 (by decide) (by decide)

/-- Claim C7: the price extractor parses `"12.500 €"` and `"12 500 €"` to 12500,
rejects `"€12.500"` (the currency mark must follow the number), and is total —
the `ValueError` of `int()` is modelled by the `none` branch of
`int_of_string?`, which `parse_price` catches into `none` exactly as the
`try/except` does, so no input makes it fail. -/
theorem parse_price_spec :
    parse_price "12.500 €" = some 12500 ∧
    parse_price "12 500 €" = some 12500 ∧
    parse_price "€12.500" = none ∧
    ∀ t : String, parse_price t = none ∨ ∃ n, parse_price t = some n := by
  refine ⟨by decide, by decide, by decide, fun t => ?_⟩
  cases h : parse_price t with
  | none => exact Or.inl rfl
  | some n => exact Or.inr ⟨n, rfl⟩

/-- Claim C8: when the base page's links declare page indices, the discoverer
returns the stripped base URL followed by the URLs of pages
`2 .. min(highest declared index, cap)`, and nothing else. -/
theorem discover_pages_declared {base_url : String} {w : FetchWorld} {max_pages : Nat}
    {hrefs : List String}
    (hb : w.basePage = some hrefs)
    (hn : hrefs.filterMap extractPageNum ≠ []) :
    discover_pages base_url w max_pages =
      .ok (rstripSlash base_url ::
        (List.range' 2 (min ((hrefs.filterMap extractPageNum).foldl Nat.max 0) max_pages + 1 - 2)).map
          (pageUrl (rstripSlash base_url))) := by
  unfold discover_pages
  rw [hb]
  exact if_pos hn

/-- Witness for C8: a base page declaring indices up to 7 with cap 5 yields
exactly the five URLs of pages 1 through 5. -/
theorem discover_pages_declared_wit :
    discover_pages "https://s/" declaredWorld 5 =
      .ok ["https://s", "https://s/pagina-2", "https://s/pagina-3", "https://s/pagina-4",
           "https://s/pagina-5"] := by
  rw [@discover_pages_declared "https://s/" declaredWorld 5
    ["/moto/pagina-7", "/moto/pagina-2", ""] rfl (by decide)]
  rfl

/-- Claim C9, counterexample: a non-HTTP transport error while probing page 2 is
not caught by the probing loop's `except requests.HTTPError` handler, so
`discover_pages` propagates it (modelled as `.error ()`) instead of returning
the already-collected page list `["https://e"]`. -/
theorem discover_pages_probe_cex :
    discover_pages "https://e" probeCrashWorld 3 = .error () := by
  rfl

/-- Claim C9 (amended): during sequential probing an HTTP "not found" stops the
loop and returns the pages collected so far; any other HTTP status error is
swallowed and probing continues with the next index; a non-HTTP transport
error propagates out of the discoverer.  (The first conjunct links
`discover_pages` to the probing loop when the base fetch fails.) -/
theorem discover_pages_probe_errors (w : FetchWorld) (b : String) (i n : Nat) (acc : List String) :
    (∀ base_url mp, w.basePage = none →
        discover_pages base_url w mp =
          probeLoop w (rstripSlash base_url) 2 (mp - 1) [rstripSlash base_url]) ∧
    (∀ c, w.probe i = .httpError c → c ≠ some 404 →
        probeLoop w b i (n + 1) acc = probeLoop w b (i + 1) n acc) ∧
    (w.probe i = .httpError (some 404) → probeLoop w b i (n + 1) acc = .ok acc) ∧
    (w.probe i = .otherError → probeLoop w b i (n + 1) acc = .error ()) := by
  refine ⟨fun base_url mp hb => ?_, fun c hc h404 => ?_, fun hc => ?_, fun hc => ?_⟩
  · unfold discover_pages
    rw [hb]
  · simp only [probeLoop]
    rw [hc]
    show (if c = some 404 then Except.ok acc else probeLoop w b (i + 1) n acc) =
      probeLoop w b (i + 1) n acc
    rw [if_neg h404]
  · simp only [probeLoop]
    rw [hc]
    show (if (some 404 : Option Nat) = some 404 then Except.ok acc
          else probeLoop w b (i + 1) n acc) = Except.ok acc
    rw [if_pos rfl]
  · simp only [probeLoop]
    rw [hc]

/-- Witness for the amended C9: an HTTP 500 on page 2 is swallowed and probing
continues at page 3; with a failed base fetch, discovery runs the probing
loop. -/
theorem discover_pages_probe_errors_wit :
    probeLoop probeHttpWorld "u" 2 2 ["u"] = probeLoop probeHttpWorld "u" 3 1 ["u"] ∧
    discover_pages "https://u" probeHttpWorld 3 =
      probeLoop probeHttpWorld (rstripSlash "https://u") 2 2 [rstripSlash "https://u"] :=
  ⟨(discover_pages_probe_errors probeHttpWorld "u" 2 1 ["u"]).2.1 (some 500) rfl (by decide),
   (discover_pages_probe_errors probeHttpWorld "x" 0 0 []).1 "https://u" 3 rfl⟩

/-- Deduplication leaves a duplicate-free list unchanged. -/
theorem dedupAux_eq_self :
    ∀ (rows seen : List ListingRecord), rows.Nodup → (∀ x ∈ rows, x ∉ seen) →
      dedupAux seen rows = rows := by
  intro rows
  induction rows with
  | nil => intro seen _ _; rfl
  | cons r rs ih =>
    intro seen hnd hdisj
    unfold dedupAux
    rw [if_neg (hdisj r (List.mem_cons_self r rs))]
    congr 1
    apply ih (r :: seen) (List.Nodup.of_cons hnd)
    intro x hx hmem
    rcases List.mem_cons.mp hmem with rfl | hseen
    · exact (List.nodup_cons.mp hnd).1 hx
    · exact hdisj x (List.mem_cons_of_mem r hx) hseen

/-- Claim C10: the aggregator's deduplicate-then-sort step is the identity on a
dataset that is already free of duplicates and already sorted by
(year ascending, price ascending). -/
theorem aggregate_records_idempotent {rows : List ListingRecord}
    (hnd : rows.Nodup) (hsorted : rows.Sorted keyLe) :
    aggregate_records rows = rows := by
  unfold aggregate_records dropDuplicates
  rw [dedupAux_eq_self rows [] hnd (fun x _ hmem => absurd hmem (List.not_mem_nil x))]
  by_cases h : rows = []
  · rw [if_pos h]
  · rw [if_neg h]
    exact hsorted.insertionSort_eq

/-- Witness for C10: a concrete two-record dataset (equal years, distinct
prices) maps to itself. -/
theorem aggregate_records_idempotent_wit :
    aggregate_records
      [⟨"Honda", "CBR 650 R", 2019, 12500, none, none, "u1"⟩,
       ⟨"Honda", "CBR 650 R", 2019, 13000, some 8200, some "Milano (MI)", "u2"⟩] =
      [⟨"Honda", "CBR 650 R", 2019, 12500, none, none, "u1"⟩,
       ⟨"Honda", "CBR 650 R", 2019, 13000, some 8200, some "Milano (MI)", "u2"⟩] :=
  aggregate_records_idempotent (by decide) (by decide)

end MotoIt
